import Mathlib

/-!
Shallow embedding of the protocol/data layer of `rust-electrum-client`
(`src/types.rs`): the JSON-RPC request model, the hex codec used by the
response decoders, the script-hash derivation, and the serde-derived
decoders of the response and notification records.

Modelling conventions:
  * Rust machine integers are modelled as `Nat` (unsigned) or `Int`
    (signed); range checks appear exactly where the code performs them
    (at JSON decode time).
  * Rust strings are modelled as Lean `String`; the hex codec works on
    the underlying character list.
  * Fallible operations return `Except`, mirroring Rust `Result`.
-/

/-- Hex value of one character, mirroring `char::to_digit(16)` as used by
the `bitcoin_hashes` hex iterator: accepts `0-9`, `a-f` and `A-F`. -/
def hexVal (c : Char) : Option Nat :=
  if '0' ≤ c ∧ c ≤ '9' then some (c.toNat - 48)
  else if 'a' ≤ c ∧ c ≤ 'f' then some (c.toNat - 87)
  else if 'A' ≤ c ∧ c ≤ 'F' then some (c.toNat - 55)
  else none

/-- Errors of the `bitcoin_hashes` hex decoder (`hex::Error`). -/
inductive HexError where
  | invalidChar (c : Char)
  | oddLengthString (n : Nat)
  | invalidLength (expected got : Nat)
deriving DecidableEq, Repr

/-- Pairwise decoding of hex characters into bytes, mirroring the
`HexIterator` of `bitcoin_hashes` collected into a byte vector: the first
invalid character aborts with `InvalidChar`. -/
def decodePairs : List Char → Except HexError (List Nat)
  | [] => .ok []
  | [c] => .error (.invalidChar c)
  | c1 :: c2 :: rest =>
    match hexVal c1 with
    | none => .error (.invalidChar c1)
    | some hi =>
      match hexVal c2 with
      | none => .error (.invalidChar c2)
      | some lo =>
        match decodePairs rest with
        | .error e => .error e
        | .ok bs => .ok ((16 * hi + lo) :: bs)

/-- Model of `Vec<u8>::from_hex` from `bitcoin_hashes`: odd-length input
is rejected first (`OddLengthString`), then the characters are decoded
pairwise. -/
def fromHexBytes (s : List Char) : Except HexError (List Nat) :=
  if s.length % 2 = 1 then .error (.oddLengthString s.length)
  else decodePairs s

/-- Model of `<[u8; n]>::from_hex` from `bitcoin_hashes`: odd length is
rejected first, then the length is checked against `2 * n`
(`InvalidLength(2n, got)`), then characters are decoded pairwise. -/
def fromHexFixed (n : Nat) (s : List Char) : Except HexError (List Nat) :=
  if s.length % 2 = 1 then .error (.oddLengthString s.length)
  else if s.length = 2 * n then decodePairs s
  else .error (.invalidLength (2 * n) s.length)

/-- Lowercase hex digit of a value below 16 (specification-side encoder). -/
def hexDigitOfVal (v : Nat) : Char :=
  if v < 10 then Char.ofNat (48 + v) else Char.ofNat (87 + v)

/-- Lowercase hex encoding of one byte. -/
def byteToHex (b : Nat) : List Char :=
  [hexDigitOfVal (b / 16), hexDigitOfVal (b % 16)]

/-- Lowercase hex encoding of a byte sequence (specification-side
encoder used to state the round-trip law). -/
def encodeHexCore (bs : List Nat) : List Char :=
  bs.flatMap byteToHex

/-- A character is a lowercase hex digit (a decimal digit or one of the
letters a through f). -/
def isLowerHexDigit (c : Char) : Bool :=
  decide ('0' ≤ c ∧ c ≤ '9') || decide ('a' ≤ c ∧ c ≤ 'f')

theorem hexVal_of_lower (c : Char) (h : isLowerHexDigit c = true) :
    hexVal c = some ((hexVal c).getD 0) ∧ (hexVal c).getD 0 < 16 ∧
      hexDigitOfVal ((hexVal c).getD 0) = c := by
  simp only [isLowerHexDigit, Bool.or_eq_true, decide_eq_true_eq] at h
  rcases h with ⟨h1, h2⟩ | ⟨h1, h2⟩
  · have h1' : 48 ≤ c.toNat := h1
    have h2' : c.toNat ≤ 57 := h2
    rw [hexVal, if_pos ⟨h1, h2⟩]
    refine ⟨rfl, by simp; omega, ?_⟩
    simp only [Option.getD_some, hexDigitOfVal, if_pos (by omega : c.toNat - 48 < 10)]
    have hsum : 48 + (c.toNat - 48) = c.toNat := by omega
    rw [hsum, Char.ofNat_toNat]
  · have h1' : 97 ≤ c.toNat := h1
    have h2' : c.toNat ≤ 102 := h2
    have hno1 : ¬('0' ≤ c ∧ c ≤ '9') := by
      intro ⟨a1, a2⟩
      have : c.toNat ≤ 57 := a2
      omega
    rw [hexVal, if_neg hno1, if_pos ⟨h1, h2⟩]
    refine ⟨rfl, by simp; omega, ?_⟩
    simp only [Option.getD_some, hexDigitOfVal, if_neg (by omega : ¬(c.toNat - 87 < 10))]
    have hsum : 87 + (c.toNat - 87) = c.toNat := by omega
    rw [hsum, Char.ofNat_toNat]

theorem encodeHexCore_cons (b : Nat) (bs : List Nat) :
    encodeHexCore (b :: bs) = byteToHex b ++ encodeHexCore bs := by
  simp [encodeHexCore]

theorem listPairInduction {α : Type} (motive : List α → Prop)
    (nil : motive []) (single : ∀ c, motive [c])
    (pair : ∀ c1 c2 rest, motive rest → motive (c1 :: c2 :: rest)) :
    ∀ l, motive l
  | [] => nil
  | [c] => single c
  | c1 :: c2 :: rest => pair c1 c2 rest (listPairInduction motive nil single pair rest)

theorem decodePairs_roundtrip (cs : List Char)
    (h : ∀ c ∈ cs, isLowerHexDigit c) (he : cs.length % 2 = 0) :
    ∃ bs, decodePairs cs = .ok bs ∧ encodeHexCore bs = cs ∧ bs.length = cs.length / 2 := by
  induction cs using listPairInduction with
  | nil =>
    exact ⟨[], rfl, rfl, rfl⟩
  | single c =>
    simp at he
  | pair c1 c2 rest ih =>
    obtain ⟨hv1, hlt1, hd1⟩ := hexVal_of_lower c1 (h c1 (by simp))
    obtain ⟨hv2, hlt2, hd2⟩ := hexVal_of_lower c2 (h c2 (by simp))
    have he' : rest.length % 2 = 0 := by
      simp only [List.length_cons] at he; omega
    obtain ⟨bs, hok, henc, hlen⟩ := ih (fun c hc => h c (by simp [hc])) he'
    set v1 := (hexVal c1).getD 0 with hv1def
    set v2 := (hexVal c2).getD 0 with hv2def
    refine ⟨(16 * v1 + v2) :: bs, ?_, ?_, ?_⟩
    · simp [decodePairs, hv1, hv2, hok]
    · have hdiv : (16 * v1 + v2) / 16 = v1 := by omega
      have hmod : (16 * v1 + v2) % 16 = v2 := by omega
      simp [encodeHexCore_cons, byteToHex, hdiv, hmod, hd1, hd2, henc]
    · simp only [List.length_cons, hlen]; omega

theorem decodePairs_badchar (cs : List Char)
    (h : ∃ c ∈ cs, hexVal c = none) :
    ∃ e, decodePairs cs = .error e := by
  induction cs using listPairInduction with
  | nil =>
    simp at h
  | single c =>
    exact ⟨.invalidChar c, rfl⟩
  | pair c1 c2 rest ih =>
    match hv1 : hexVal c1 with
    | none => exact ⟨.invalidChar c1, by simp [decodePairs, hv1]⟩
    | some v1 =>
      match hv2 : hexVal c2 with
      | none => exact ⟨.invalidChar c2, by simp [decodePairs, hv1, hv2]⟩
      | some v2 =>
        have hr : ∃ c ∈ rest, hexVal c = none := by
          obtain ⟨c, hc, hnone⟩ := h
          simp only [List.mem_cons] at hc
          rcases hc with rfl | rfl | hc
          · rw [hv1] at hnone; cases hnone
          · rw [hv2] at hnone; cases hnone
          · exact ⟨c, hc, hnone⟩
        obtain ⟨e, he⟩ := ih hr
        have : decodePairs (c1 :: c2 :: rest) = .error e := by
          simp [decodePairs, hv1, hv2, he]
        exact ⟨e, this⟩

/-- C4: for every even-length string of lowercase hex digits, hex-decoding
succeeds with a byte buffer of half the length, and re-encoding that buffer
as lowercase hex restores the original string; odd-length input always
fails with an odd-length hex error, and input with any non-hex character
always fails with a hex error. -/
theorem hex_decode_roundtrip_and_failure (s : List Char) :
    ((∀ c ∈ s, isLowerHexDigit c) → s.length % 2 = 0 →
      ∃ bs, fromHexBytes s = .ok bs ∧ encodeHexCore bs = s ∧ bs.length = s.length / 2)
    ∧ (s.length % 2 = 1 → fromHexBytes s = .error (.oddLengthString s.length))
    ∧ ((∃ c ∈ s, hexVal c = none) → ∃ e, fromHexBytes s = .error e) := by
  refine ⟨fun h he => ?_, fun ho => ?_, fun hbad => ?_⟩
  · obtain ⟨bs, hok, henc, hlen⟩ := decodePairs_roundtrip s h he
    exact ⟨bs, by simp [fromHexBytes, he, hok], henc, hlen⟩
  · simp [fromHexBytes, ho]
  · by_cases ho : s.length % 2 = 1
    · exact ⟨.oddLengthString s.length, by simp [fromHexBytes, ho]⟩
    · obtain ⟨e, he⟩ := decodePairs_badchar s hbad
      exact ⟨e, by simp [fromHexBytes, ho, he]⟩

/-- C4 witness: concrete instances of the three parts of the round-trip
law, at the inputs "0f", "abc" and "0g". -/
theorem hex_decode_roundtrip_and_failure_witness :
    (∃ bs, fromHexBytes ['0', 'f'] = .ok bs ∧ encodeHexCore bs = ['0', 'f'] ∧
      bs.length = ['0', 'f'].length / 2)
    ∧ fromHexBytes ['a', 'b', 'c'] = .error (.oddLengthString 3)
    ∧ (∃ e, fromHexBytes ['0', 'g'] = .error e) :=
  ⟨(hex_decode_roundtrip_and_failure ['0', 'f']).1 (by decide) (by decide),
   (hex_decode_roundtrip_and_failure ['a', 'b', 'c']).2.1 (by decide),
   (hex_decode_roundtrip_and_failure ['0', 'g']).2.2 ⟨'g', by decide, by decide⟩⟩

/-- Model of `serde_json` JSON values as seen by this layer. Numbers are
modelled as integers: every numeric field of the protocol layer is an
integer type, and the claims involve only integral payloads. Objects keep
their entries in wire order, matching the streaming (de)serializer. -/
inductive Json where
  | null
  | bool (b : Bool)
  | num (n : Int)
  | str (s : String)
  | arr (elems : List Json)
  | obj (entries : List (String × Json))
deriving BEq

/-- A single parameter of a `Request` (`enum Param` in `types.rs`). -/
inductive Param where
  | u32 (n : Nat)
  | usize (n : Nat)
  | string (s : String)
  | bool (b : Bool)
  | json (v : Json)

/-- Serialization of a `Param`, mirroring `#[serde(untagged)]`: the wire
form is the bare underlying value, with no wrapper or discriminant. -/
def Param.toJson : Param → Json
  | .u32 n => .num n
  | .usize n => .num n
  | .string s => .str s
  | .bool b => .bool b
  | .json v => v

/-- The fixed protocol-version literal (`static JSONRPC_2_0` in
`types.rs`). -/
def JSONRPC_2_0 : String := "2.0"

/-- A request that can be sent to the server (`struct Request` in
`types.rs`). -/
structure Request where
  jsonrpc : String
  id : Nat
  method : String
  params : List Param

/-- Creates a new request with a default id (`Request::new`). -/
def Request.new (method : String) (params : List Param) : Request :=
  { id := 0, jsonrpc := JSONRPC_2_0, method := method, params := params }

/-- Creates a new request with a user-specified id (`Request::new_id`):
builds the default request, then overwrites its id. -/
def Request.new_id (id : Nat) (method : String) (params : List Param) : Request :=
  let inst := Request.new method params
  { inst with id := id }

/-- Serialization of a `Request`, mirroring `#[derive(Serialize)]`:
fields are emitted in declaration order, and `params` becomes an array of
the bare parameter values. -/
def Request.toJson (r : Request) : Json :=
  .obj [("jsonrpc", .str r.jsonrpc), ("id", .num r.id), ("method", .str r.method),
    ("params", .arr (r.params.map Param.toJson))]

/-- Escape of a single character inside a JSON string literal, as
produced by the `serde_json` writer. -/
def escapeJsonChar (c : Char) : String :=
  if c = '"' then "\\\""
  else if c = '\\' then "\\\\"
  else if c.toNat = 8 then "\\b"
  else if c.toNat = 12 then "\\f"
  else if c = '\n' then "\\n"
  else if c = '\r' then "\\r"
  else if c = '\t' then "\\t"
  else if c.toNat < 32 then
    "\\u00" ++ String.mk [hexDigitOfVal (c.toNat / 16), hexDigitOfVal (c.toNat % 16)]
  else String.singleton c

/-- A JSON string literal with surrounding quotes. -/
def renderJsonString (s : String) : String :=
  "\"" ++ String.join (s.data.map escapeJsonChar) ++ "\""

mutual

/-- Compact JSON text of a value, as produced by
`serde_json::to_string`. -/
def render : Json → String
  | .null => "null"
  | .bool true => "true"
  | .bool false => "false"
  | .num n => toString n
  | .str s => renderJsonString s
  | .arr es => "[" ++ renderElems es ++ "]"
  | .obj kvs => "\x7b" ++ renderEntries kvs ++ "\x7d"

/-- Comma-separated rendering of array elements. -/
def renderElems : List Json → String
  | [] => ""
  | [j] => render j
  | j :: rest => render j ++ "," ++ renderElems rest

/-- Comma-separated rendering of object entries. -/
def renderEntries : List (String × Json) → String
  | [] => ""
  | [(k, v)] => renderJsonString k ++ ":" ++ render v
  | (k, v) :: rest => renderJsonString k ++ ":" ++ render v ++ "," ++ renderEntries rest

end

/-- C2: `Request::new` always assigns id 0, `Request::new_id` assigns
exactly the caller-supplied id, and both constructors set the protocol
version to the literal "2.0" and store the given method and params
unchanged. -/
theorem request_constructor_contract (method : String) (params : List Param) (i : Nat) :
    (Request.new method params).id = 0
    ∧ (Request.new_id i method params).id = i
    ∧ (Request.new method params).jsonrpc = "2.0"
    ∧ (Request.new_id i method params).jsonrpc = "2.0"
    ∧ (Request.new method params).method = method
    ∧ (Request.new method params).params = params
    ∧ (Request.new_id i method params).method = method
    ∧ (Request.new_id i method params).params = params :=
  ⟨rfl, rfl, rfl, rfl, rfl, rfl, rfl, rfl⟩

/-- C3: serializing a `Request` emits an object with keys jsonrpc, id,
method, params in that order, `params` being the array of the bare
underlying values of the parameters (each `Param` variant serializes to
its inner value); in particular `Request::new("server.version", [])`
serializes to exactly the expected JSON text. -/
theorem request_serialization (r : Request) (n m : Nat) (s : String) (b : Bool) (v : Json) :
    r.toJson = Json.obj [("jsonrpc", .str r.jsonrpc), ("id", .num r.id),
      ("method", .str r.method), ("params", .arr (r.params.map Param.toJson))]
    ∧ Param.toJson (.u32 n) = .num n
    ∧ Param.toJson (.usize m) = .num m
    ∧ Param.toJson (.string s) = .str s
    ∧ Param.toJson (.bool b) = .bool b
    ∧ Param.toJson (.json v) = v
    ∧ render (Request.new "server.version" []).toJson =
        "\x7b\"jsonrpc\":\"2.0\",\"id\":0,\"method\":\"server.version\",\"params\":[]\x7d" :=
  ⟨rfl, rfl, rfl, rfl, rfl, rfl, by decide⟩

/-- Truncation to a 32-bit word. -/
def w32 (n : Nat) : Nat := n % 4294967296

/-- Right rotation of a 32-bit word by `n` bits. -/
def rotr32 (n x : Nat) : Nat := x / 2 ^ n + x % 2 ^ n * 2 ^ (32 - n)

/-- Logical right shift of a 32-bit word by `n` bits. -/
def shr32 (n x : Nat) : Nat := x / 2 ^ n

/-- SHA-256 choice function. -/
def chFn (e f g : Nat) : Nat := (e &&& f) ^^^ ((e ^^^ 4294967295) &&& g)

/-- SHA-256 majority function. -/
def majFn (a b c : Nat) : Nat := (a &&& b) ^^^ (a &&& c) ^^^ (b &&& c)

/-- SHA-256 big sigma 0. -/
def bsig0 (x : Nat) : Nat := rotr32 2 x ^^^ rotr32 13 x ^^^ rotr32 22 x

/-- SHA-256 big sigma 1. -/
def bsig1 (x : Nat) : Nat := rotr32 6 x ^^^ rotr32 11 x ^^^ rotr32 25 x

/-- SHA-256 small sigma 0. -/
def ssig0 (x : Nat) : Nat := rotr32 7 x ^^^ rotr32 18 x ^^^ shr32 3 x

/-- SHA-256 small sigma 1. -/
def ssig1 (x : Nat) : Nat := rotr32 17 x ^^^ rotr32 19 x ^^^ shr32 10 x

/-- SHA-256 round constants. -/
def sha256K : List Nat :=
  [1116352408, 1899447441, 3049323471, 3921009573,
   961987163, 1508970993, 2453635748, 2870763221,
   3624381080, 310598401, 607225278, 1426881987,
   1925078388, 2162078206, 2614888103, 3248222580,
   3835390401, 4022224774, 264347078, 604807628,
   770255983, 1249150122, 1555081692, 1996064986,
   2554220882, 2821834349, 2952996808, 3210313671,
   3336571891, 3584528711, 113926993, 338241895,
   666307205, 773529912, 1294757372, 1396182291,
   1695183700, 1986661051, 2177026350, 2456956037,
   2730485921, 2820302411, 3259730800, 3345764771,
   3516065817, 3600352804, 4094571909, 275423344,
   430227734, 506948616, 659060556, 883997877,
   958139571, 1322822218, 1537002063, 1747873779,
   1955562222, 2024104815, 2227730452, 2361852424,
   2428436474, 2756734187, 3204031479, 3329325298]

/-- SHA-256 initial hash values. -/
def sha256H0 : List Nat :=
  [1779033703, 3144134277, 1013904242, 2773480762,
   1359893119, 2600822924, 528734635, 1541459225]

/-- Big-endian 8-byte encoding of the bit length. -/
def lenBytesBE (n : Nat) : List Nat :=
  [n / 2 ^ 56 % 256, n / 2 ^ 48 % 256, n / 2 ^ 40 % 256, n / 2 ^ 32 % 256,
   n / 2 ^ 24 % 256, n / 2 ^ 16 % 256, n / 2 ^ 8 % 256, n % 256]

/-- SHA-256 padding: append 0x80, zero bytes up to 56 mod 64, then the
bit length as 8 big-endian bytes. -/
def padMsg (msg : List Nat) : List Nat :=
  msg ++ 128 :: List.replicate ((64 - (msg.length + 9) % 64) % 64) 0 ++ lenBytesBE (8 * msg.length)

/-- Split a byte sequence into 64-byte blocks. -/
def chunks64 : List Nat → List (List Nat)
  | [] => []
  | b :: rest => (List.take 64 (b :: rest)) :: chunks64 (List.drop 64 (b :: rest))
termination_by l => l.length
decreasing_by simp [List.length_drop]; omega

/-- Big-endian 32-bit words of a byte sequence. -/
def bytesToWords : List Nat → List Nat
  | b0 :: b1 :: b2 :: b3 :: rest =>
    (b0 * 2 ^ 24 + b1 * 2 ^ 16 + b2 * 2 ^ 8 + b3) :: bytesToWords rest
  | _ => []

/-- One extension step of the SHA-256 message schedule. -/
def scheduleStep (w : List Nat) : List Nat :=
  w ++ [w32 (ssig1 (w.getD (w.length - 2) 0) + w.getD (w.length - 7) 0 +
    ssig0 (w.getD (w.length - 15) 0) + w.getD (w.length - 16) 0)]

/-- The 64-word SHA-256 message schedule of one block. -/
def msgSchedule (ws : List Nat) : List Nat :=
  (List.range 48).foldl (fun w _ => scheduleStep w) ws

/-- One SHA-256 compression round over the 8-word working state. -/
def roundStep (w : List Nat) (st : Nat × Nat × Nat × Nat × Nat × Nat × Nat × Nat)
    (i : Nat) : Nat × Nat × Nat × Nat × Nat × Nat × Nat × Nat :=
  let (a, b, c, d, e, f, g, h) := st
  let t1 := w32 (h + bsig1 e + chFn e f g + sha256K.getD i 0 + w.getD i 0)
  let t2 := w32 (bsig0 a + majFn a b c)
  (w32 (t1 + t2), a, b, c, w32 (d + t1), e, f, g)

/-- SHA-256 compression of one 64-byte block into the hash state. -/
def compress (hv : List Nat) (chunk : List Nat) : List Nat :=
  let w := msgSchedule (bytesToWords chunk)
  let init8 := (hv.getD 0 0, hv.getD 1 0, hv.getD 2 0, hv.getD 3 0,
    hv.getD 4 0, hv.getD 5 0, hv.getD 6 0, hv.getD 7 0)
  let fin := (List.range 64).foldl (roundStep w) init8
  [w32 (hv.getD 0 0 + fin.1), w32 (hv.getD 1 0 + fin.2.1), w32 (hv.getD 2 0 + fin.2.2.1),
   w32 (hv.getD 3 0 + fin.2.2.2.1), w32 (hv.getD 4 0 + fin.2.2.2.2.1),
   w32 (hv.getD 5 0 + fin.2.2.2.2.2.1), w32 (hv.getD 6 0 + fin.2.2.2.2.2.2.1),
   w32 (hv.getD 7 0 + fin.2.2.2.2.2.2.2)]

/-- Big-endian bytes of one 32-bit word. -/
def wordToBytesBE (w : Nat) : List Nat :=
  [w / 2 ^ 24 % 256, w / 2 ^ 16 % 256, w / 2 ^ 8 % 256, w % 256]

/-- SHA-256 digest of a byte sequence (FIPS 180-4), modelling
`bitcoin_hashes::sha256::Hash::hash`. -/
def sha256 (msg : List Nat) : List Nat :=
  ((chunks64 (padMsg msg)).foldl compress sha256H0).flatMap wordToBytesBE

/-- The Electrum script hash of a locking script's bytes
(`ToElectrumScriptHash for Script` in `types.rs`): the byte-reversed
SHA-256 digest of the script bytes. -/
def to_electrum_scripthash (script : List Nat) : List Nat :=
  (sha256 script).reverse

theorem compress_length (hv chunk : List Nat) : (compress hv chunk).length = 8 := by
  simp [compress]

theorem foldl_compress_length (blocks : List (List Nat)) (hv : List Nat)
    (h : hv.length = 8) : (blocks.foldl compress hv).length = 8 := by
  induction blocks generalizing hv with
  | nil => simpa using h
  | cons b bs ih => simpa using ih (compress hv b) (compress_length hv b)

theorem flatMap_wordToBytesBE_length (l : List Nat) :
    (l.flatMap wordToBytesBE).length = 4 * l.length := by
  induction l with
  | nil => rfl
  | cons x xs ih => simp [wordToBytesBE, ih]; omega

theorem sha256_length (msg : List Nat) : (sha256 msg).length = 32 := by
  unfold sha256
  rw [flatMap_wordToBytesBE_length, foldl_compress_length _ sha256H0 rfl]

/-- C1: the Electrum script hash of any locking-script byte sequence is
the byte-reversal of its SHA-256 digest, it is always 32 bytes long (the
derivation is total, with no failure path), and it is deterministic:
equal inputs yield equal outputs. -/
theorem to_electrum_scripthash_spec (s : List Nat) :
    to_electrum_scripthash s = (sha256 s).reverse
    ∧ (to_electrum_scripthash s).length = 32
    ∧ ∀ t, s = t → to_electrum_scripthash s = to_electrum_scripthash t := by
  refine ⟨rfl, ?_, fun t ht => by rw [ht]⟩
  simpa [to_electrum_scripthash] using sha256_length s

/-- C1 witness: the script-hash properties instantiated at the empty
script. -/
theorem to_electrum_scripthash_spec_witness :
    to_electrum_scripthash [] = (sha256 []).reverse
    ∧ (to_electrum_scripthash []).length = 32
    ∧ to_electrum_scripthash [] = to_electrum_scripthash [] :=
  ⟨(to_electrum_scripthash_spec []).1, (to_electrum_scripthash_spec []).2.1,
   (to_electrum_scripthash_spec []).2.2 [] rfl⟩

/-- Decode errors of the serde layer: structural JSON errors of the
derived deserializers, plus hex errors lifted by `de::Error::custom`. -/
inductive DecodeError where
  | typeMismatch
  | intOutOfRange
  | missingField (k : String)
  | duplicateField (k : String)
  | hex (e : HexError)
deriving DecidableEq, Repr

/-- JSON decode of a string. -/
def decodeStr : Json → Except DecodeError String
  | .str s => .ok s
  | _ => .error .typeMismatch

/-- JSON decode of a `u8`. -/
def decodeU8 : Json → Except DecodeError Nat
  | .num n => if 0 ≤ n ∧ n < 256 then .ok n.toNat else .error .intOutOfRange
  | _ => .error .typeMismatch

/-- JSON decode of a `u64`. -/
def decodeU64 : Json → Except DecodeError Nat
  | .num n => if 0 ≤ n ∧ n < 18446744073709551616 then .ok n.toNat else .error .intOutOfRange
  | _ => .error .typeMismatch

/-- JSON decode of a `usize` (64-bit target). -/
def decodeUsize : Json → Except DecodeError Nat
  | .num n => if 0 ≤ n ∧ n < 18446744073709551616 then .ok n.toNat else .error .intOutOfRange
  | _ => .error .typeMismatch

/-- JSON decode of an `i32`. -/
def decodeI32 : Json → Except DecodeError Int
  | .num n => if -2147483648 ≤ n ∧ n < 2147483648 then .ok n else .error .intOutOfRange
  | _ => .error .typeMismatch

/-- JSON decode of an `i64`. -/
def decodeI64 : Json → Except DecodeError Int
  | .num n =>
    if -9223372036854775808 ≤ n ∧ n < 9223372036854775808 then .ok n
    else .error .intOutOfRange
  | _ => .error .typeMismatch

/-- JSON decode of an `Option<T>`: `null` becomes `None`, anything else
is decoded by the inner decoder. -/
def decodeOpt {α : Type} (d : Json → Except DecodeError α) :
    Json → Except DecodeError (Option α)
  | .null => .ok none
  | j => (d j).map some

/-- Model of the `from_hex` deserializer of `types.rs` instantiated at
`[u8; 32]`: decode a JSON string, then `from_hex`, lifting hex failures
via `de::Error::custom`. -/
def decodeHex32 (j : Json) : Except DecodeError (List Nat) :=
  match decodeStr j with
  | .error e => .error e
  | .ok s => (fromHexFixed 32 s.data).mapError DecodeError.hex

/-- Model of the `from_hex` deserializer of `types.rs` instantiated at
`Vec<u8>`. -/
def decodeHexVec (j : Json) : Except DecodeError (List Nat) :=
  match decodeStr j with
  | .error e => .error e
  | .ok s => (fromHexBytes s.data).mapError DecodeError.hex

/-- Element loop of the plain serde decode of a byte-array sequence. -/
def decodeU8Each : List Json → Except DecodeError (List Nat)
  | [] => .ok []
  | j :: rest =>
    match decodeU8 j with
    | .error e => .error e
    | .ok b =>
      match decodeU8Each rest with
      | .error e => .error e
      | .ok bs => .ok (b :: bs)

/-- Plain serde decode of `[u8; 32]` (no `deserialize_with` attribute):
a JSON sequence of exactly 32 byte-valued numbers. A JSON string is a
type error here. -/
def decodeBytes32 : Json → Except DecodeError (List Nat)
  | .arr es => if es.length = 32 then decodeU8Each es else .error .typeMismatch
  | _ => .error .typeMismatch

/-- Model of the serde decode of `bitcoin::Txid`: a 64-character hex
string in display order, whose bytes are reversed into wire order. -/
def decodeTxid (j : Json) : Except DecodeError (List Nat) :=
  match decodeStr j with
  | .error e => .error e
  | .ok s => ((fromHexFixed 32 s.data).mapError DecodeError.hex).map List.reverse

/-- Element loop of `Vec::<String>::deserialize`: each element must be a
JSON string; the first failure aborts. -/
def decodeStrEach : List Json → Except DecodeError (List String)
  | [] => .ok []
  | j :: rest =>
    match decodeStr j with
    | .error e => .error e
    | .ok s =>
      match decodeStrEach rest with
      | .error e => .error e
      | .ok ss => .ok (s :: ss)

/-- Model of `Vec::<String>::deserialize`. -/
def decodeStringList : Json → Except DecodeError (List String)
  | .arr es => decodeStrEach es
  | _ => .error .typeMismatch

/-- Hex decode of one array element, as the closure inside
`from_hex_array` instantiated at `[u8; 32]` (its use in `GetMerkleRes`):
`T::from_hex(&s).map_err(de::Error::custom)`. -/
def hexElem (s : String) : Except DecodeError (List Nat) :=
  (fromHexFixed 32 s.data).mapError DecodeError.hex

/-- The push loop of `from_hex_array`: results are walked in order and
the first error aborts the whole operation. -/
def collectResults {α : Type} : List (Except DecodeError α) → Except DecodeError (List α)
  | [] => .ok []
  | x :: rest =>
    match x with
    | .error e => .error e
    | .ok v =>
      match collectResults rest with
      | .error e => .error e
      | .ok vs => .ok (v :: vs)

/-- Model of the `from_hex_array` deserializer of `types.rs`
instantiated at `[u8; 32]`: decode a JSON array of strings, hex-decode
each element, and collect the results, aborting on the first error. -/
def from_hex_array (j : Json) : Except DecodeError (List (List Nat)) :=
  match decodeStringList j with
  | .error e => .error e
  | .ok arr => collectResults (arr.map hexElem)

/-- Response to a `script_get_history` request (`GetHistoryRes`). -/
structure GetHistoryRes where
  height : Int
  tx_hash : List Nat
  fee : Option Nat
deriving DecidableEq, Repr

/-- Field loop of the derived deserializer of `GetHistoryRes`: entries
are processed in wire order, duplicates are rejected, unknown keys are
ignored; at the end the required fields must be present, while the
missing `Option` field `fee` defaults to `None`. -/
def ghrFold : List (String × Json) → Option Int → Option (List Nat) →
    Option (Option Nat) → Except DecodeError GetHistoryRes
  | [], hs, ts, fs =>
    match hs with
    | none => .error (.missingField "height")
    | some hv =>
      match ts with
      | none => .error (.missingField "tx_hash")
      | some tv => .ok { height := hv, tx_hash := tv, fee := fs.getD none }
  | (k, v) :: rest, hs, ts, fs =>
    if k = "height" then
      match hs with
      | some _ => .error (.duplicateField "height")
      | none =>
        match decodeI32 v with
        | .error e => .error e
        | .ok n => ghrFold rest (some n) ts fs
    else if k = "tx_hash" then
      match ts with
      | some _ => .error (.duplicateField "tx_hash")
      | none =>
        match decodeTxid v with
        | .error e => .error e
        | .ok t => ghrFold rest hs (some t) fs
    else if k = "fee" then
      match fs with
      | some _ => .error (.duplicateField "fee")
      | none =>
        match decodeOpt decodeU64 v with
        | .error e => .error e
        | .ok f => ghrFold rest hs ts (some f)
    else ghrFold rest hs ts fs

/-- Derived deserializer of `GetHistoryRes`. -/
def decodeGetHistoryRes : Json → Except DecodeError GetHistoryRes
  | .obj entries => ghrFold entries none none none
  | _ => .error .typeMismatch

/-- Response to a `server_features` request (`ServerFeaturesRes`). -/
structure ServerFeaturesRes where
  server_version : String
  genesis_hash : List Nat
  protocol_min : String
  protocol_max : String
  hash_function : Option String
  pruning : Option Int
deriving DecidableEq, Repr

/-- Field loop of the derived deserializer of `ServerFeaturesRes`;
`genesis_hash` routes through the `from_hex` deserializer. -/
def sfrFold : List (String × Json) → Option String → Option (List Nat) → Option String →
    Option String → Option (Option String) → Option (Option Int) →
    Except DecodeError ServerFeaturesRes
  | [], sv, gh, pmin, pmax, hf, pr =>
    match sv with
    | none => .error (.missingField "server_version")
    | some svv =>
      match gh with
      | none => .error (.missingField "genesis_hash")
      | some ghv =>
        match pmin with
        | none => .error (.missingField "protocol_min")
        | some pminv =>
          match pmax with
          | none => .error (.missingField "protocol_max")
          | some pmaxv =>
            .ok { server_version := svv, genesis_hash := ghv, protocol_min := pminv,
                  protocol_max := pmaxv, hash_function := hf.getD none,
                  pruning := pr.getD none }
  | (k, v) :: rest, sv, gh, pmin, pmax, hf, pr =>
    if k = "server_version" then
      match sv with
      | some _ => .error (.duplicateField "server_version")
      | none =>
        match decodeStr v with
        | .error e => .error e
        | .ok s => sfrFold rest (some s) gh pmin pmax hf pr
    else if k = "genesis_hash" then
      match gh with
      | some _ => .error (.duplicateField "genesis_hash")
      | none =>
        match decodeHex32 v with
        | .error e => .error e
        | .ok g => sfrFold rest sv (some g) pmin pmax hf pr
    else if k = "protocol_min" then
      match pmin with
      | some _ => .error (.duplicateField "protocol_min")
      | none =>
        match decodeStr v with
        | .error e => .error e
        | .ok s => sfrFold rest sv gh (some s) pmax hf pr
    else if k = "protocol_max" then
      match pmax with
      | some _ => .error (.duplicateField "protocol_max")
      | none =>
        match decodeStr v with
        | .error e => .error e
        | .ok s => sfrFold rest sv gh pmin (some s) hf pr
    else if k = "hash_function" then
      match hf with
      | some _ => .error (.duplicateField "hash_function")
      | none =>
        match decodeOpt decodeStr v with
        | .error e => .error e
        | .ok s => sfrFold rest sv gh pmin pmax (some s) pr
    else if k = "pruning" then
      match pr with
      | some _ => .error (.duplicateField "pruning")
      | none =>
        match decodeOpt decodeI64 v with
        | .error e => .error e
        | .ok p => sfrFold rest sv gh pmin pmax hf (some p)
    else sfrFold rest sv gh pmin pmax hf pr

/-- Derived deserializer of `ServerFeaturesRes`. -/
def decodeServerFeaturesRes : Json → Except DecodeError ServerFeaturesRes
  | .obj entries => sfrFold entries none none none none none none
  | _ => .error .typeMismatch

/-- Fields of a Bitcoin block header (`bitcoin::BlockHeader`), carried by
the headers-batch record; never constructed by the wire decoder of this
layer. -/
structure BlockHeader where
  version : Int
  prev_blockhash : List Nat
  merkle_root : List Nat
  time : Nat
  bits : Nat
  nonce : Nat
deriving DecidableEq, Repr

/-- Response to a `block_headers` request (`GetHeadersRes`). -/
structure GetHeadersRes where
  max : Nat
  count : Nat
  raw_headers : List Nat
  headers : List BlockHeader
deriving DecidableEq, Repr

/-- Field loop of the derived deserializer of `GetHeadersRes`: the
`raw_headers` field is read from the wire key "hex" through the
`from_hex` deserializer, and the `headers` field is `#[serde(skip)]`,
so the record is always built with an empty `headers` list; a "headers"
key in the input is an unknown key and is ignored. -/
def ghdrFold : List (String × Json) → Option Nat → Option Nat → Option (List Nat) →
    Except DecodeError GetHeadersRes
  | [], ms, cs, rs =>
    match ms with
    | none => .error (.missingField "max")
    | some mv =>
      match cs with
      | none => .error (.missingField "count")
      | some cv =>
        match rs with
        | none => .error (.missingField "hex")
        | some rv => .ok { max := mv, count := cv, raw_headers := rv, headers := [] }
  | (k, v) :: rest, ms, cs, rs =>
    if k = "max" then
      match ms with
      | some _ => .error (.duplicateField "max")
      | none =>
        match decodeUsize v with
        | .error e => .error e
        | .ok n => ghdrFold rest (some n) cs rs
    else if k = "count" then
      match cs with
      | some _ => .error (.duplicateField "count")
      | none =>
        match decodeUsize v with
        | .error e => .error e
        | .ok n => ghdrFold rest ms (some n) rs
    else if k = "hex" then
      match rs with
      | some _ => .error (.duplicateField "hex")
      | none =>
        match decodeHexVec v with
        | .error e => .error e
        | .ok bs => ghdrFold rest ms cs (some bs)
    else ghdrFold rest ms cs rs

/-- Derived deserializer of `GetHeadersRes`. -/
def decodeGetHeadersRes : Json → Except DecodeError GetHeadersRes
  | .obj entries => ghdrFold entries none none none
  | _ => .error .typeMismatch

/-- Response to a `transaction_get_merkle` request (`GetMerkleRes`). -/
structure GetMerkleRes where
  block_height : Nat
  pos : Nat
  merkle : List (List Nat)
deriving DecidableEq, Repr

/-- Field loop of the derived deserializer of `GetMerkleRes`; the
`merkle` field routes through the `from_hex_array` deserializer. -/
def gmrFold : List (String × Json) → Option Nat → Option Nat → Option (List (List Nat)) →
    Except DecodeError GetMerkleRes
  | [], bs, ps, ms =>
    match bs with
    | none => .error (.missingField "block_height")
    | some bv =>
      match ps with
      | none => .error (.missingField "pos")
      | some pv =>
        match ms with
        | none => .error (.missingField "merkle")
        | some mv => .ok { block_height := bv, pos := pv, merkle := mv }
  | (k, v) :: rest, bs, ps, ms =>
    if k = "block_height" then
      match bs with
      | some _ => .error (.duplicateField "block_height")
      | none =>
        match decodeUsize v with
        | .error e => .error e
        | .ok n => gmrFold rest (some n) ps ms
    else if k = "pos" then
      match ps with
      | some _ => .error (.duplicateField "pos")
      | none =>
        match decodeUsize v with
        | .error e => .error e
        | .ok n => gmrFold rest bs (some n) ms
    else if k = "merkle" then
      match ms with
      | some _ => .error (.duplicateField "merkle")
      | none =>
        match from_hex_array v with
        | .error e => .error e
        | .ok m => gmrFold rest bs ps (some m)
    else gmrFold rest bs ps ms

/-- Derived deserializer of `GetMerkleRes`. -/
def decodeGetMerkleRes : Json → Except DecodeError GetMerkleRes
  | .obj entries => gmrFold entries none none none
  | _ => .error .typeMismatch

/-- Notification of the new status of a script (`ScriptNotification`).
Its two fields have type `[u8; 32]` with no `deserialize_with`
attribute, so they use the plain serde byte-array decode. -/
structure ScriptNotification where
  scripthash : List Nat
  status : List Nat
deriving DecidableEq, Repr

/-- Field loop of the derived deserializer of `ScriptNotification`. -/
def snFold : List (String × Json) → Option (List Nat) → Option (List Nat) →
    Except DecodeError ScriptNotification
  | [], ss, ts =>
    match ss with
    | none => .error (.missingField "scripthash")
    | some sv =>
      match ts with
      | none => .error (.missingField "status")
      | some tv => .ok { scripthash := sv, status := tv }
  | (k, v) :: rest, ss, ts =>
    if k = "scripthash" then
      match ss with
      | some _ => .error (.duplicateField "scripthash")
      | none =>
        match decodeBytes32 v with
        | .error e => .error e
        | .ok b => snFold rest (some b) ts
    else if k = "status" then
      match ts with
      | some _ => .error (.duplicateField "status")
      | none =>
        match decodeBytes32 v with
        | .error e => .error e
        | .ok b => snFold rest ss (some b)
    else snFold rest ss ts

/-- Derived deserializer of `ScriptNotification`. -/
def decodeScriptNotification : Json → Except DecodeError ScriptNotification
  | .obj entries => snFold entries none none
  | _ => .error .typeMismatch

/-- Decidable equality of `Except` values, used to evaluate the decoders
on concrete payloads. -/
instance {ε α : Type} [DecidableEq ε] [DecidableEq α] : DecidableEq (Except ε α)
  | .error e1, .error e2 =>
    if h : e1 = e2 then isTrue (by rw [h]) else isFalse (by intro hh; cases hh; exact h rfl)
  | .error _, .ok _ => isFalse (by intro hh; cases hh)
  | .ok _, .error _ => isFalse (by intro hh; cases hh)
  | .ok a1, .ok a2 =>
    if h : a1 = a2 then isTrue (by rw [h]) else isFalse (by intro hh; cases hh; exact h rfl)

/-- A 64-character hex string of zeros, a well-formed 32-byte field. -/
def z64 : String := "0000000000000000000000000000000000000000000000000000000000000000"

/-- C6: a server-features payload whose genesis_hash field is the
malformed odd-length hex string "abc" fails to decode with the
odd-length hex error, whatever the other fields hold; no record
(zero-filled or otherwise) is produced. -/
theorem server_features_bad_genesis_hash (sv pmin pmax hf : String) (pr : Json) :
    decodeServerFeaturesRes (Json.obj
      [("server_version", .str sv), ("genesis_hash", .str "abc"),
       ("protocol_min", .str pmin), ("protocol_max", .str pmax),
       ("hash_function", .str hf), ("pruning", pr)])
      = .error (.hex (.oddLengthString 3)) := by
  have habc : decodeHex32 (.str "abc") = .error (.hex (.oddLengthString 3)) := by decide
  simp [decodeServerFeaturesRes, sfrFold, decodeStr, habc]

/-- C9: a history entry with height 0 and fee null decodes to a record
with fee None and height 0; the height field is signed, so height -1
decodes to a record with height -1. -/
theorem history_decode_height_fee :
    decodeGetHistoryRes (Json.obj
      [("height", .num 0), ("tx_hash", .str z64), ("fee", .null)])
      = .ok { height := 0, tx_hash := List.replicate 32 0, fee := none }
    ∧ decodeGetHistoryRes (Json.obj
      [("height", .num (-1)), ("tx_hash", .str z64), ("fee", .null)])
      = .ok { height := -1, tx_hash := List.replicate 32 0, fee := none } := by
  constructor <;> decide

/-- C10: a history entry with the fee key entirely absent still decodes
successfully with fee None, and yields the same record as the payload
with an explicit null fee. -/
theorem history_decode_missing_fee :
    decodeGetHistoryRes (Json.obj [("height", .num 0), ("tx_hash", .str z64)])
      = .ok { height := 0, tx_hash := List.replicate 32 0, fee := none }
    ∧ decodeGetHistoryRes (Json.obj [("height", .num 0), ("tx_hash", .str z64)])
      = decodeGetHistoryRes (Json.obj
        [("height", .num 0), ("tx_hash", .str z64), ("fee", .null)]) := by
  constructor <;> decide

/-- C7 evaluation: the script-notification decoder rejects the
64-hex-character string wire form of its two 32-byte fields with a type
error, and instead succeeds on a JSON array of 32 integers, contradicting
the claim that decoding succeeds exactly on the 64-hex-character wire
form. -/
theorem script_notification_wire_mismatch :
    decodeScriptNotification (Json.obj [("scripthash", .str z64), ("status", .str z64)])
      = .error .typeMismatch
    ∧ decodeScriptNotification (Json.obj
      [("scripthash", .arr (List.replicate 32 (.num 0))),
       ("status", .arr (List.replicate 32 (.num 0)))])
      = .ok { scripthash := List.replicate 32 0, status := List.replicate 32 0 } := by
  constructor <;> decide

theorem decodeStrEach_map_str (l : List String) :
    decodeStrEach (l.map Json.str) = .ok l := by
  induction l with
  | nil => rfl
  | cons s rest ih => simp [decodeStrEach, decodeStr, ih]

theorem collectResults_ok {α : Type} (rs : List (Except DecodeError α)) (vs : List α)
    (h : collectResults rs = .ok vs) :
    rs.length = vs.length ∧ ∀ i (h1 : i < rs.length) (h2 : i < vs.length),
      rs.get ⟨i, h1⟩ = .ok (vs.get ⟨i, h2⟩) := by
  induction rs generalizing vs with
  | nil =>
    simp only [collectResults, Except.ok.injEq] at h
    subst h
    exact ⟨rfl, fun i h1 h2 => absurd h1 (by simp)⟩
  | cons x rest ih =>
    rcases x with e | v
    · simp [collectResults] at h
    · rcases hr : collectResults rest with e | vs'
      · simp [collectResults, hr] at h
      · simp only [collectResults, hr, Except.ok.injEq] at h
        subst h
        obtain ⟨hlen, hidx⟩ := ih vs' hr
        refine ⟨by simp [hlen], fun i h1 h2 => ?_⟩
        cases i with
        | zero => rfl
        | succ i' => exact hidx i' (by simpa using h1) (by simpa using h2)

theorem collectResults_error {α : Type} (rs1 : List (Except DecodeError α)) (e : DecodeError)
    (rs2 : List (Except DecodeError α)) (hok : ∀ x ∈ rs1, ∃ v, x = .ok v) :
    collectResults (rs1 ++ .error e :: rs2) = .error e := by
  induction rs1 with
  | nil => rfl
  | cons x rest ih =>
    obtain ⟨v, rfl⟩ := hok x (by simp)
    have hr := ih (fun y hy => hok y (by simp [hy]))
    simp [collectResults, hr]

theorem from_hex_array_map_str (l : List String) :
    from_hex_array (Json.arr (l.map Json.str)) = collectResults (l.map hexElem) := by
  simp [from_hex_array, decodeStringList, decodeStrEach_map_str]

/-- C5: when the hex-array decoder is given a JSON array of strings and
succeeds, the output has one byte array per input string, and the i-th
output is exactly the independent hex decode of the i-th input (order is
preserved); and whenever some element fails while all elements before it
decode, the whole operation fails with that element's error. -/
theorem from_hex_array_order_and_abort (l : List String) :
    (∀ bs, from_hex_array (Json.arr (l.map Json.str)) = .ok bs →
      bs.length = l.length ∧ ∀ i (h1 : i < l.length) (h2 : i < bs.length),
        hexElem (l.get ⟨i, h1⟩) = .ok (bs.get ⟨i, h2⟩))
    ∧ ∀ l1 s l2 e, l = l1 ++ s :: l2 → (∀ t ∈ l1, ∃ b, hexElem t = .ok b) →
      hexElem s = .error e → from_hex_array (Json.arr (l.map Json.str)) = .error e := by
  constructor
  · intro bs h
    rw [from_hex_array_map_str] at h
    obtain ⟨hlen, hidx⟩ := collectResults_ok (l.map hexElem) bs h
    simp only [List.length_map] at hlen
    refine ⟨hlen.symm, fun i h1 h2 => ?_⟩
    have := hidx i (by simpa using h1) h2
    rwa [List.get_map] at this
  · intro l1 s l2 e hl hok hs
    subst hl
    rw [from_hex_array_map_str, List.map_append, List.map_cons, hs]
    exact collectResults_error (l1.map hexElem) e (l2.map hexElem) (fun x hx => by
      obtain ⟨t, ht, rfl⟩ := List.mem_map.mp hx
      exact hok t ht)

/-- C5 witness: a singleton well-formed array decodes element-wise, and
an array whose first element is the odd-length string "abc" aborts with
that element's hex error. -/
theorem from_hex_array_order_and_abort_witness :
    hexElem z64 = .ok (List.replicate 32 0)
    ∧ from_hex_array (Json.arr (["abc"].map Json.str))
        = .error (.hex (.oddLengthString 3)) :=
  ⟨((from_hex_array_order_and_abort [z64]).1 [List.replicate 32 0] (by decide)).2 0
      (by decide) (by decide),
   (from_hex_array_order_and_abort ["abc"]).2 [] "abc" [] (.hex (.oddLengthString 3)) rfl
      (by simp) (by decide)⟩

theorem ghdrFold_headers_nil (entries : List (String × Json)) :
    ∀ ms cs rs r, ghdrFold entries ms cs rs = .ok r → r.headers = [] := by
  induction entries with
  | nil =>
    intro ms cs rs r h
    rcases ms with _ | mv <;> rcases cs with _ | cv <;> rcases rs with _ | rv <;>
      simp_all [ghdrFold]
    subst h
    rfl
  | cons kv rest ih =>
    intro ms cs rs r h
    obtain ⟨k, v⟩ := kv
    by_cases h1 : k = "max"
    · rcases ms with _ | mv
      · rcases hd : decodeUsize v with e | n
        · simp [ghdrFold, h1, hd] at h
        · simp only [ghdrFold, h1, if_true, eq_self_iff_true] at h
          rw [hd] at h
          exact ih _ _ _ _ (by simpa using h)
      · simp [ghdrFold, h1] at h
    · by_cases h2 : k = "count"
      · rcases cs with _ | cv
        · rcases hd : decodeUsize v with e | n
          · simp [ghdrFold, h1, h2, hd] at h
          · simp only [ghdrFold, h1, h2, if_true, if_false, eq_self_iff_true] at h
            rw [hd] at h
            exact ih _ _ _ _ (by simpa using h)
        · simp [ghdrFold, h1, h2] at h
      · by_cases h3 : k = "hex"
        · rcases rs with _ | rv
          · rcases hd : decodeHexVec v with e | bs
            · simp [ghdrFold, h1, h2, h3, hd] at h
            · simp only [ghdrFold, h1, h2, h3, if_true, if_false, eq_self_iff_true] at h
              rw [hd] at h
              exact ih _ _ _ _ (by simpa using h)
          · simp [ghdrFold, h1, h2, h3] at h
        · simp only [ghdrFold, h1, h2, h3, if_false] at h
          exact ih _ _ _ _ (by simpa [h1, h2, h3] using h)

/-- C8: whenever the wire decoder of the headers-batch record succeeds,
the headers field of the result is the empty list, regardless of the
payload and in particular of raw_headers. -/
theorem headers_decode_never_populates (j : Json) (r : GetHeadersRes)
    (h : decodeGetHeadersRes j = .ok r) : r.headers = [] := by
  rcases j with _ | b | n | s | es | entries <;>
    first
      | exact ghdrFold_headers_nil entries none none none r h
      | simp [decodeGetHeadersRes] at h

/-- C8 witness: a concrete headers-batch payload with non-empty raw
header bytes decodes to a record whose headers field is empty. -/
theorem headers_decode_never_populates_witness :
    GetHeadersRes.headers { max := 2016, count := 1, raw_headers := [0], headers := [] } = [] :=
  headers_decode_never_populates
    (Json.obj [("max", .num 2016), ("count", .num 1), ("hex", .str "00")])
    { max := 2016, count := 1, raw_headers := [0], headers := [] } (by decide)
